import Mathlib

/-!
Verification development for the recursive PDF link crawler
(upload_pdf_app/backend/Webscraping/link_downloader.py).

Python string, path and URL library functions used by the crawler are
modelled on Lean strings and character lists (faithful on the ASCII
inputs the crawler meets); the crawler itself is translated function by
function.  Network and browser effects are abstracted into world records
whose fields give, per URL, the outcome of each I/O helper; the file
system (one output directory) is an explicit list of file names.
-/

namespace LinkDownloader

/-- character-list version of String.startsWith. -/
def startsWithL : List Char → List Char → Bool
  | [], _ => true
  | _ :: _, [] => false
  | p :: ps, c :: cs => p == c && startsWithL ps cs

/-- drop a pattern from the front of a list, comparing case-insensitively;
returns the remainder of the original list on a match. -/
def dropCi : List Char → List Char → Option (List Char)
  | [], l => some l
  | _ :: _, [] => none
  | p :: ps, c :: cs => if p.toLower == c.toLower then dropCi ps cs else none

/-- occurrence of a needle anywhere in a haystack (Python "needle in hay"). -/
def hasSub : List Char → List Char → Bool
  | needle, [] => needle.isEmpty
  | needle, c :: cs => startsWithL needle (c :: cs) || hasSub needle cs

/-- Python "needle in hay" on strings. -/
def strContains (hay needle : String) : Bool := hasSub needle.data hay.data

/-- Python str.lower on ASCII text. -/
def lowerStr (s : String) : String := String.mk (s.data.map Char.toLower)

/-- Python str.startswith. -/
def pyStartsWith (s pat : String) : Bool := startsWithL pat.data s.data

/-- Python str.endswith. -/
def pyEndsWith (s pat : String) : Bool := startsWithL pat.data.reverse s.data.reverse

/-- split at every occurrence of a separator character (Python
str.split with a one-character separator). -/
def splitOnCharAux (sep : Char) : List Char → List Char → List (List Char)
  | [], acc => [acc.reverse]
  | c :: rest, acc =>
    if c == sep then acc.reverse :: splitOnCharAux sep rest []
    else splitOnCharAux sep rest (c :: acc)

def splitOnChar (sep : Char) (l : List Char) : List (List Char) := splitOnCharAux sep l []

/-- join strings with a separator (Python str.join). -/
def joinSep (sep : String) : List String → String
  | [] => ""
  | [x] => x
  | x :: y :: rest => x ++ sep ++ joinSep sep (y :: rest)

/-- whitespace stripped by Python str.strip with no argument (ASCII part). -/
def isPySpace (c : Char) : Bool :=
  c == ' ' || c == '\t' || c == '\n' || c == '\r' || c.toNat == 11 || c.toNat == 12

/-- model of Python str.strip with no argument. -/
def pyStrip (l : List Char) : List Char :=
  ((l.dropWhile isPySpace).reverse.dropWhile isPySpace).reverse

/-- model of Python str.strip with a single-character argument. -/
def pyStripChar (c : Char) (l : List Char) : List Char :=
  ((l.dropWhile (· == c)).reverse.dropWhile (· == c)).reverse

def hexVal (c : Char) : Option Nat :=
  if '0' ≤ c ∧ c ≤ '9' then some (c.toNat - 48)
  else if 'a' ≤ c ∧ c ≤ 'f' then some (c.toNat - 87)
  else if 'A' ≤ c ∧ c ≤ 'F' then some (c.toNat - 55)
  else none

/-- model of urllib.parse.unquote restricted to single-byte escapes: a
percent escape below 0x80 decodes to that character, other escapes and
stray percent signs stay verbatim (multi-byte UTF-8 escapes are not
modelled; every theorem below is insensitive to this because the
sanitiser runs after unquoting). -/
def pyUnquote : List Char → List Char
  | [] => []
  | '%' :: h1 :: h2 :: rest =>
    match hexVal h1, hexVal h2 with
    | some a, some b =>
      let v := 16 * a + b
      if v < 128 then Char.ofNat v :: pyUnquote rest
      else '%' :: h1 :: h2 :: pyUnquote rest
    | _, _ => '%' :: pyUnquote (h1 :: h2 :: rest)
  | c :: rest => c :: pyUnquote rest

/-- characters replaced by the sanitiser regex [<>:"/\\|?*\x00-\x1F]. -/
def badFileChar (c : Char) : Bool :=
  c == '<' || c == '>' || c == ':' || c == '"' || c == '/' || c == '\\' ||
  c == '|' || c == '?' || c == '*' || decide (c.toNat ≤ 31)

/-- translation of sanitize_filename (lines 46-49) up to the final default:
unquote, strip, newline and carriage return to spaces, forbidden
characters to underscores, truncate to 200 characters. -/
def sanitizeCore (s : String) : List Char :=
  let l := pyStrip (pyUnquote s.data)
  let l := l.map fun c => if c == '\n' || c == '\r' then ' ' else c
  let l := l.map fun c => if badFileChar c then '_' else c
  l.take 200

/-- translation of sanitize_filename (lines 46-49). -/
def sanitize_filename (s : String) : String :=
  if (sanitizeCore s).isEmpty then "file.pdf" else String.mk (sanitizeCore s)

def aposChar : Char := Char.ofNat 39

/-- the literal UTF-8 followed by two apostrophes, from the
content-disposition regex. -/
def utfPat : List Char := ['u', 't', 'f', '-', '8', aposChar, aposChar]

/-- capture group of the content-disposition regex: an optional double
quote, then one or more characters that are neither a double quote nor a
semicolon. -/
def cdCapture (l : List Char) : Option (List Char) :=
  let body := match l with
    | '"' :: rest => rest
    | _ => l
  let grp := body.takeWhile fun c => !(c == '"' || c == ';')
  if grp.isEmpty then none else some grp

/-- attempt of the content-disposition filename regex at one position. -/
def cdTryAt (l : List Char) : Option (List Char) :=
  match dropCi ['f', 'i', 'l', 'e', 'n', 'a', 'm', 'e'] l with
  | none => none
  | some l1 =>
    let l2opt : Option (List Char) :=
      match l1 with
      | '=' :: r => some r
      | '*' :: '=' :: r => some r
      | _ => none
    match l2opt with
    | none => none
    | some l2 =>
      match dropCi utfPat l2 with
      | some l3 =>
        match cdCapture l3 with
        | some g => some g
        | none => cdCapture l2
      | none => cdCapture l2

/-- leftmost search of the content-disposition filename regex. -/
def cdScan : List Char → Option (List Char)
  | [] => none
  | c :: rest =>
    match cdTryAt (c :: rest) with
    | some g => some g
    | none => cdScan rest

/-- translation of filename_from_cd (lines 51-55). -/
def filename_from_cd : Option String → Option String
  | none => none
  | some cd =>
    match cdScan cd.data with
    | some g => some (sanitize_filename (String.mk g))
    | none => none

def nlFree (l : List Char) : Bool := !(l.contains '\n')

/-- tail of PDF_REGEX after the .pdf, with Python semantics: the dot of
the regex does not match a newline and the final dollar also matches
just before one trailing newline. -/
def pdfTailOk (l : List Char) : Bool :=
  match l with
  | [] => true
  | c :: rest =>
    (c == '\n' && rest.isEmpty) ||
    ((c == '?' || c == '#') &&
      (match rest.reverse with
       | '\n' :: r => nlFree r
       | _ => nlFree rest))

/-- scan of the lowercased input for .pdf followed by an admissible tail. -/
def pdfScan : List Char → Bool
  | [] => false
  | c :: rest =>
    (match c :: rest with
     | '.' :: 'p' :: 'd' :: 'f' :: t => pdfTailOk t
     | _ => false) || pdfScan rest

/-- translation of PDF_REGEX.search (line 20): case-insensitive search for
.pdf at the end of the string, optionally followed by a query or
fragment. -/
def pdfRegexSearch (s : String) : Bool := pdfScan (s.data.map Char.toLower)

/-- HTTP response as seen by the crawler: the Content-Type header (empty
string when absent), the final URL after redirects, and the
Content-Disposition header when present. -/
structure HttpResp where
  contentType : String
  url : String
  contentDisposition : Option String
deriving DecidableEq

/-- translation of is_pdf_response (lines 115-123). -/
def is_pdf_response (r : HttpResp) : Bool :=
  strContains (lowerStr r.contentType) "application/pdf" || pdfRegexSearch r.url

structure UrlParts where
  scheme : String
  netloc : String
  path : String
  query : String
  fragment : String
deriving DecidableEq

def schemeChar (c : Char) : Bool := c.isAlphanum || c == '+' || c == '-' || c == '.'

/-- model of urllib.parse.urlparse for the URLs the crawler meets: the
scheme is split at the first colon when the text before it is a valid
scheme, the network location follows a double slash up to a slash,
question mark or hash, the fragment follows the first hash and the query
the first question mark (path parameters are not modelled; no crawler
input carries them). -/
def pyUrlparse (url : String) : UrlParts :=
  let l := url.data
  let before := l.takeWhile fun c => !(c == ':')
  let schemeRest : String × List Char :=
    match l.dropWhile (fun c => !(c == ':')) with
    | ':' :: r =>
      if !before.isEmpty && (before.headD ' ').isAlpha && before.all schemeChar then
        (String.mk (before.map Char.toLower), r)
      else ("", l)
    | _ => ("", l)
  let rest := schemeRest.2
  let netlocRest : String × List Char :=
    match rest with
    | '/' :: '/' :: r =>
      (String.mk (r.takeWhile fun c => !(c == '/' || c == '?' || c == '#')),
       r.dropWhile fun c => !(c == '/' || c == '?' || c == '#'))
    | _ => ("", rest)
  let beforeFrag := netlocRest.2.takeWhile fun c => !(c == '#')
  let frag :=
    match netlocRest.2.dropWhile (fun c => !(c == '#')) with
    | '#' :: f => String.mk f
    | _ => ""
  let path := String.mk (beforeFrag.takeWhile fun c => !(c == '?'))
  let query :=
    match beforeFrag.dropWhile (fun c => !(c == '?')) with
    | '?' :: q => String.mk q
    | _ => ""
  ⟨schemeRest.1, netlocRest.1, path, query, frag⟩

def plusToSpace (l : List Char) : List Char := l.map fun c => if c == '+' then ' ' else c

/-- model of urllib.parse.unquote_plus. -/
def unquotePlus (s : String) : String := String.mk (pyUnquote (plusToSpace s.data))

/-- append a value to the list held under a key, first-seen key order. -/
def qsInsert (l : List (String × List String)) (k : String) (v : String) :
    List (String × List String) :=
  match l with
  | [] => [(k, [v])]
  | (k0, vs) :: rest => if k0 == k then (k0, vs ++ [v]) :: rest else (k0, vs) :: qsInsert rest k v

/-- model of urllib.parse.parse_qs with default options: split on
ampersands, keep only pairs with a nonempty value, plus-decode and
percent-decode names and values, group values per name in first-seen
order. -/
def parse_qs (q : String) : List (String × List String) :=
  (splitOnChar '&' q.data).foldl
    (fun acc part =>
      let name := String.mk (part.takeWhile fun c => !(c == '='))
      let value := match part.dropWhile (fun c => !(c == '=')) with
        | '=' :: v => String.mk v
        | _ => ""
      if value == "" then acc
      else qsInsert acc (unquotePlus name) (unquotePlus value))
    []

/-- dict assignment on a parse_qs result, keeping the key position. -/
def qsSet (l : List (String × List String)) (k : String) (v : List String) :
    List (String × List String) :=
  match l with
  | [] => [(k, v)]
  | (k0, vs) :: rest => if k0 == k then (k0, v) :: rest else (k0, vs) :: qsSet rest k v

def hexDigit (n : Nat) : Char := if n < 10 then Char.ofNat (48 + n) else Char.ofNat (55 + n)

/-- model of urllib.parse.quote_plus on ASCII text. -/
def quotePlusChar (c : Char) : List Char :=
  if c.isAlphanum || c == '_' || c == '.' || c == '-' || c == '~' then [c]
  else if c == ' ' then ['+']
  else ['%', hexDigit (c.toNat / 16 % 16), hexDigit (c.toNat % 16)]

def quotePlus (s : String) : String :=
  String.mk (s.data.foldr (fun c acc => quotePlusChar c ++ acc) [])

/-- model of urllib.parse.urlencode on a string-valued dict: quote-plus
names and values and join with ampersands, in dict insertion order. -/
def urlencode (l : List (String × String)) : String :=
  joinSep "&" (l.map fun kv => quotePlus kv.1 ++ "=" ++ quotePlus kv.2)

/-- model of urllib.parse.urlunparse (via urlunsplit). -/
def urlunparse (scheme netloc path params query fragment : String) : String :=
  let url := if params == "" then path else path ++ ";" ++ params
  let url :=
    if !(netloc == "") || pyStartsWith url "//" then
      "//" ++ netloc ++ (if !(url == "") && !pyStartsWith url "/" then "/" ++ url else url)
    else url
  let url := if !(scheme == "") then scheme ++ ":" ++ url else url
  let url := if !(query == "") then url ++ "?" ++ query else url
  if !(fragment == "") then url ++ "#" ++ fragment else url

/-- translation of GOOGLE_DRIVE_REGEX.match (line 22): a path of the form
/file/d/ID/view, case-insensitively, returning the file id. -/
def driveFileMatch (path : String) : Option String :=
  match dropCi "/file/d/".data path.data with
  | none => none
  | some rest =>
    let fid := rest.takeWhile fun c => !(c == '/')
    if fid.isEmpty then none
    else
      match dropCi "/view".data (rest.dropWhile fun c => !(c == '/')) with
      | some _ => some (String.mk fid)
      | none => none

/-- one alternative of DOC_ID_REGEX.match (line 23). -/
def docIdTry (kind : String) (path : String) : Option String :=
  match dropCi kind.data path.data with
  | none => none
  | some rest =>
    let did := rest.takeWhile fun c => !(c == '/')
    if did.isEmpty then none else some (String.mk did)

/-- translation of DOC_ID_REGEX.match (line 23). -/
def docIdMatch (path : String) : Option String :=
  match docIdTry "/document/d/" path with
  | some d => some d
  | none =>
    match docIdTry "/spreadsheets/d/" path with
    | some d => some d
    | none => docIdTry "/presentation/d/" path

/-- replacement of every occurrence of a pattern, left to right; the fuel
starts at the length of the input and is never exhausted before it. -/
def replaceAllAux (pat rep : List Char) : Nat → List Char → List Char
  | 0, l => l
  | _ + 1, [] => []
  | fuel + 1, c :: rest =>
    if startsWithL pat (c :: rest) && !pat.isEmpty then
      rep ++ replaceAllAux pat rep fuel ((c :: rest).drop pat.length)
    else
      c :: replaceAllAux pat rep fuel rest

/-- model of Python str.replace with a nonempty pattern. -/
def pyReplace (s pat rep : String) : String :=
  String.mk (replaceAllAux pat.data rep.data s.data.length s.data)

/-- translation of google_direct_download_url (lines 181-266). -/
def google_direct_download_url (url : String) : Option String :=
  let u := pyUrlparse url
  let hostName := u.netloc
  let pathPart := u.path
  let queryPart := u.query
  let driveResult : Option String :=
    if pyEndsWith hostName "drive.google.com" then
      match driveFileMatch pathPart with
      | some fid => some ("https://drive.google.com/uc?export=download&id=" ++ fid)
      | none =>
        if pyEndsWith pathPart "/open" then
          match (parse_qs queryPart).lookup "id" with
          | some (v :: _) => some ("https://drive.google.com/uc?export=download&id=" ++ v)
          | _ => none
        else none
    else none
  match driveResult with
  | some r => some r
  | none =>
    if pyEndsWith hostName "docs.google.com" then
      if strContains pathPart "/spreadsheets/" && strContains pathPart "/d/e/" &&
         strContains pathPart "pubhtml" then
        let newPath := pyReplace pathPart "/pubhtml" "/pub"
        let qp := qsSet (parse_qs queryPart) "output" ["pdf"]
        let qd := qp.map fun kv => (kv.1, kv.2.headD "")
        some (urlunparse u.scheme u.netloc newPath "" (urlencode qd) "")
      else
        match docIdMatch pathPart with
        | some did =>
          if strContains pathPart "/document/" then
            some ("https://docs.google.com/document/d/" ++ did ++ "/export?format=pdf")
          else if strContains pathPart "/spreadsheets/" then
            some ("https://docs.google.com/spreadsheets/d/" ++ did ++ "/export?format=pdf")
          else if strContains pathPart "/presentation/" then
            some ("https://docs.google.com/presentation/d/" ++ did ++ "/export/pdf")
          else none
        | none => none
    else none

/-- model of pathlib PurePosixPath(p).name: the last component, with empty
and single-dot components dropped during parsing. -/
def pathName (p : String) : String :=
  let comps := ((splitOnChar '/' p.data).map String.mk).filter fun c => !(c == "") && !(c == ".")
  (comps.getLast?).getD ""

/-- translation of derive_filename_from_url (lines 57-61); the crawler
always calls it with the default extension .pdf. -/
def derive_filename_from_url (url : String) (defaultExt : String) : String :=
  let tail := pathName (pyUrlparse url).path
  let tail := if tail == "" then "download" else tail
  let tail :=
    if !(defaultExt == "") && !pyEndsWith (lowerStr tail) defaultExt then tail ++ defaultExt
    else tail
  sanitize_filename tail

/-- insertion into the output directory (writing a file makes it exist;
set semantics on names). -/
def insertName (fs : List String) (n : String) : List String :=
  if fs.contains n then fs else n :: fs

/-- model of os.remove on the output directory. -/
def removeName (fs : List String) (n : String) : List String :=
  fs.filter fun m => !(m == n)

/-- filename chosen by stream_download_pdf: the content-disposition name
when the header yields one, else one derived from the final URL. -/
def targetName (r : HttpResp) : String :=
  (filename_from_cd r.contentDisposition).getD (derive_filename_from_url r.url ".pdf")

/-- filesystem outcome of the body-saving part of a download: a clean
write, an exception while streaming the body (a partial file remains and
the except clause returns None), or a failure at open (no file). -/
inductive WriteOutcome where
  | ok
  | midFail
  | openFail
deriving DecidableEq

/-- network and filesystem behaviour of one stream_download_pdf call:
resp is the response to the GET (none when the request or
raise_for_status raises, which the source catches and turns into None). -/
structure FetchWorld where
  resp : Option HttpResp
  write : WriteOutcome

/-- translation of stream_download_pdf (lines 126-176) over an abstract
response world and an abstract output directory (a list of file names):
returns the saved path (the file name inside the output directory), the
updated directory contents and the list of file writes performed. -/
def stream_download_pdf (w : FetchWorld) (skipExisting : Bool) (fs : List String) :
    Option String × List String × List String :=
  match w.resp with
  | none => (none, fs, [])
  | some resp =>
    if !is_pdf_response resp then (none, fs, [])
    else
      let name := targetName resp
      if skipExisting && fs.contains name then (some name, fs, [])
      else
        match w.write with
        | .ok => (some name, insertName fs name, [name])
        | .midFail => (none, insertName fs name, [name])
        | .openFail => (none, fs, [])

/-- translation of the filename helper inside render_html_to_pdf_playwright
(lines 473-489). -/
def build_filename (title : String) (url : String) : String :=
  let baseName :=
    if !(title == "") then sanitize_filename title
    else
      let u := pyUrlparse url
      let combined := pyStripChar '_' (pyReplace (u.netloc ++ u.path) "/" "_").data
      let s := sanitize_filename (String.mk combined)
      if s == "" then "page" else s
  if !pyEndsWith (lowerStr baseName) ".pdf" then baseName ++ ".pdf" else baseName

/-- model of pathlib with_suffix on a bare file name: replace everything
from the last dot on (a lone leading dot is not a suffix). -/
def pyWithSuffix (name suffix : String) : String :=
  match name.data.reverse.dropWhile (fun c => !(c == '.')) with
  | '.' :: stemRev =>
    if stemRev.isEmpty then name ++ suffix
    else String.mk (stemRev.reverse ++ suffix.data)
  | _ => name ++ suffix

/-- browser behaviour of one render_html_to_pdf_playwright call: nav is
the page title when navigation and the wait phase succeed and none when
they raise (the outer catch returns None); pdfOk, shotOk and convertOk
are the outcomes of page.pdf, page.screenshot and the PIL PNG-to-PDF
conversion. -/
structure RenderWorld where
  nav : Option String
  pdfOk : Bool
  shotOk : Bool
  convertOk : Bool

/-- translation of render_html_to_pdf_playwright (lines 456-628) over an
abstract browser world: returns the result path, the updated output
directory and the writes performed.  On the fallback path the screenshot
is written to the png name; when the conversion succeeds the final PDF
is written and the png removed, when it fails the png is kept (the
source logs Keeping PNG) and None is returned. -/
def render_html_to_pdf_playwright (w : RenderWorld) (url : String)
    (skipExisting screenshotFallback : Bool) (fs : List String) :
    Option String × List String × List String :=
  match w.nav with
  | none => (none, fs, [])
  | some title =>
    let outputFile := build_filename title url
    if skipExisting && fs.contains outputFile then (some outputFile, fs, [])
    else if w.pdfOk then (some outputFile, insertName fs outputFile, [outputFile])
    else if !screenshotFallback then (none, fs, [])
    else if !w.shotOk then (none, fs, [])
    else
      let png := pyWithSuffix outputFile ".png"
      let fs1 := insertName fs png
      if w.convertOk then
        (some outputFile, insertName (removeName fs1 png) outputFile, [png, outputFile])
      else (none, fs1, [png])

/-- network events of a crawl, one per I/O helper call site inside
process_link: nodeFetch is the direct stream_download_pdf of the node
URL (line 677), gFetch the stream_download_pdf of the rewritten cloud
URL (line 745), gConfirm the confirm-page helper (line 751), gBrowser
the Playwright Drive download (line 758), pageScan the
collect_pdf_links_from_page GET (line 765), linkFetch the
stream_download_pdf of one PDF link scraped from a page (line 774),
renderNav the page render (line 782), anchorScan the anchor-extraction
GET (line 820). -/
inductive NetEvent where
  | nodeFetch (url : String)
  | gFetch (url : String)
  | gConfirm (url : String)
  | gBrowser (url : String)
  | pageScan (url : String)
  | linkFetch (url : String)
  | renderNav (url : String)
  | anchorScan (url : String)
deriving DecidableEq

/-- URL downloaded by an event when it is one of the three
stream_download_pdf call sites. -/
def fetchesOf : NetEvent → Option String
  | .nodeFetch u => some u
  | .gFetch u => some u
  | .linkFetch u => some u
  | _ => none

/-- behaviour of the network, the browser and the PDF library during a
crawl, per URL: fetch gives the stream_download_pdf behaviour, confirmDl
and browserDl the results of the two Drive fallbacks, scanPage the PDF
links collect_pdf_links_from_page finds (empty on a network error, as in
the source), renderB the render behaviour, pdfLinks the HTTP links
extracted from the PDF saved at a path (none when fitz raises, which the
source catches), anchors the links of the anchor scrape (none when it
raises, which the source turns into an empty set). -/
structure CrawlWorld where
  fetch : String → FetchWorld
  confirmDl : String → Option String
  browserDl : String → Option String
  scanPage : String → List String
  renderB : String → RenderWorld
  pdfLinks : String → Option (List String)
  anchors : String → Option (List String)

/-- the process_link parameters that steer its control flow; the delay,
user agent, format, timeout and wait options only parametrise the
abstracted I/O helpers. -/
structure CrawlCfg where
  renderPages : Bool
  maxFromPage : Option Nat
  skipExisting : Bool
  screenshotFallback : Bool

/-- mutable state threaded through one crawl session: the visited set,
the output directory contents, and the trace of network events in
order. -/
structure CrawlSt where
  visited : List String
  fs : List String
  trace : List NetEvent
deriving DecidableEq

def logEv (st : CrawlSt) (e : NetEvent) : CrawlSt :=
  { st with trace := st.trace ++ [e] }

/-- result of one process_link call: the state after it and the
(attempted, succeeded, rendered) counter triple it returns. -/
structure CrawlRes where
  st : CrawlSt
  attempted : Nat
  succeeded : Nat
  rendered : Nat
deriving DecidableEq

/-- accumulation of a recursive call into the loop counters
(attempted_downloads += sub_attempted and so on). -/
def addRes (acc : CrawlRes) (r : CrawlRes) : CrawlRes :=
  ⟨r.st, acc.attempted + r.attempted, acc.succeeded + r.succeeded, acc.rendered + r.rendered⟩

/-- the http or https test url.lower().startswith used at lines 693, 836
and 915. -/
def isHttpUrl (s : String) : Bool :=
  pyStartsWith (lowerStr s) "http://" || pyStartsWith (lowerStr s) "https://"

/-- body of the recursion loop over links found in a downloaded PDF
(lines 691-722): every HTTP link is passed to the recursive call, whose
counts are added. -/
def pdfStep (go : String → CrawlSt → CrawlRes) (acc : CrawlRes) (su : String) : CrawlRes :=
  addRes acc (go su acc.st)

/-- lines 679-728: after a direct PDF download succeeded, extract links
from the saved PDF and recurse into the HTTP ones when below the depth
bound (inDepth), then add one to the attempt and success counts; go is
the recursive call at depth current + 1. -/
def pdfBranch (w : CrawlWorld) (go : String → CrawlSt → CrawlRes) (inDepth : Bool)
    (path : String) (st : CrawlSt) : CrawlRes :=
  let res : CrawlRes :=
    if inDepth then
      match w.pdfLinks path with
      | none => ⟨st, 0, 0, 0⟩
      | some links => (links.filter isHttpUrl).foldl (pdfStep go) ⟨st, 0, 0, 0⟩
    else ⟨st, 0, 0, 0⟩
  ⟨res.st, 1 + res.attempted, 1 + res.succeeded, res.rendered⟩

/-- lines 737-762: the Google Drive and Docs fallback chain; it returns
from every outcome without recursing into the acquired document. -/
def googleBranch (w : CrawlWorld) (cfg : CrawlCfg) (url : String) (st : CrawlSt) : CrawlRes :=
  match google_direct_download_url url with
  | some tUrl =>
    let st := logEv st (.gFetch tUrl)
    let sdl := stream_download_pdf (w.fetch tUrl) cfg.skipExisting st.fs
    let st := { st with fs := sdl.2.1 }
    if sdl.1.isSome then ⟨st, 1, 1, 0⟩
    else
      let st := logEv st (.gConfirm tUrl)
      match w.confirmDl tUrl with
      | some _ => ⟨st, 2, 1, 0⟩
      | none =>
        let st := logEv st (.gBrowser url)
        match w.browserDl url with
        | some _ => ⟨st, 2, 1, 0⟩
        | none => ⟨st, 1, 0, 0⟩
  | none =>
    let st := logEv st (.gBrowser url)
    match w.browserDl url with
    | some _ => ⟨st, 1, 1, 0⟩
    | none => ⟨st, 1, 0, 0⟩

/-- body of the per-page PDF download loop (lines 772-776): the scraped
link is downloaded with no visited-set check, counting one attempt and
one success when it saves. -/
def dlStep (w : CrawlWorld) (cfg : CrawlCfg) (acc : CrawlSt × Nat × Nat) (pu : String) :
    CrawlSt × Nat × Nat :=
  let st := logEv acc.1 (.linkFetch pu)
  let sdl := stream_download_pdf (w.fetch pu) cfg.skipExisting st.fs
  let st := { st with fs := sdl.2.1 }
  (st, acc.2.1 + 1, if sdl.1.isSome then acc.2.2 + 1 else acc.2.2)

/-- body of the recursion loop over links found on a page (lines
843-872): links already visited are skipped before the recursive call,
whose counts are otherwise added. -/
def crawlStep (go : String → CrawlSt → CrawlRes) (acc : CrawlRes) (su : String) : CrawlRes :=
  if acc.st.visited.contains su then acc else addRes acc (go su acc.st)

/-- lines 765-879: generic web page handling: scrape PDF links from the
page and download each (with no visited check), optionally render the
page itself, then when below the depth bound recurse into the links of
the rendered PDF when one exists, else into the page's anchors; finally
report at least one attempt. -/
def genericBranch (w : CrawlWorld) (cfg : CrawlCfg) (go : String → CrawlSt → CrawlRes)
    (inDepth : Bool) (url : String) (st : CrawlSt) : CrawlRes :=
  let st := logEv st (.pageScan url)
  let found := w.scanPage url
  let found := match cfg.maxFromPage with
    | some m => found.take m
    | none => found
  let dl := found.foldl (dlStep w cfg) (st, 0, 0)
  let rendRes :=
    if cfg.renderPages then
      let st := logEv dl.1 (.renderNav url)
      let rr := render_html_to_pdf_playwright (w.renderB url) url cfg.skipExisting
        cfg.screenshotFallback st.fs
      ({ st with fs := rr.2.1 }, rr.1)
    else (dl.1, none)
  let rendered : Nat := if rendRes.2.isSome then 1 else 0
  let res : CrawlRes :=
    if inDepth then
      let scan :=
        match rendRes.2 with
        | some p =>
          if rendRes.1.fs.contains p then (rendRes.1, (w.pdfLinks p).getD [])
          else (logEv rendRes.1 (.anchorScan url), (w.anchors url).getD [])
        | none => (logEv rendRes.1 (.anchorScan url), (w.anchors url).getD [])
      scan.2.foldl (crawlStep go) ⟨scan.1, dl.2.1, dl.2.2, rendered⟩
    else ⟨rendRes.1, dl.2.1, dl.2.2, rendered⟩
  ⟨res.st, if res.attempted == 0 then 1 else res.attempted, res.succeeded, res.rendered⟩

/-- translation of process_link (lines 633-879).  The fuel argument is a
termination device only: the source recursion is bounded because
children run at current_depth + 1 and are spawned only when
current_depth < max_depth, so the fuel max_depth + 1 - current_depth
used by process_link_run is never exhausted; fuel zero coincides with
current_depth > max_depth, where the source's depth guard returns the
zero triple without touching the state, exactly as the fuel-zero case
does. -/
def process_link (w : CrawlWorld) (cfg : CrawlCfg) :
    Nat → String → Nat → Nat → CrawlSt → CrawlRes
  | 0, _, _, _, st => ⟨st, 0, 0, 0⟩
  | fuel + 1, url, curDepth, maxDepth, st =>
    if st.visited.contains url then ⟨st, 0, 0, 0⟩
    else if maxDepth < curDepth then ⟨st, 0, 0, 0⟩
    else
      let st := { st with visited := url :: st.visited }
      let st := logEv st (.nodeFetch url)
      let sdl := stream_download_pdf (w.fetch url) cfg.skipExisting st.fs
      let st := { st with fs := sdl.2.1 }
      let go := fun su st2 => process_link w cfg fuel su (curDepth + 1) maxDepth st2
      match sdl.1 with
      | some path => pdfBranch w go (decide (curDepth < maxDepth)) path st
      | none =>
        let hostName := (pyUrlparse url).netloc
        if pyEndsWith hostName "drive.google.com" || pyEndsWith hostName "docs.google.com" then
          googleBranch w cfg url st
        else genericBranch w cfg go (decide (curDepth < maxDepth)) url st

/-- process_link at the fuel its callers establish. -/
def process_link_run (w : CrawlWorld) (cfg : CrawlCfg) (url : String)
    (curDepth maxDepth : Nat) (st : CrawlSt) : CrawlRes :=
  process_link w cfg (maxDepth + 1 - curDepth) url curDepth maxDepth st

/-- Python string comparison (code-point lexicographic) as a Bool. -/
def pyStrLe : List Char → List Char → Bool
  | [], _ => true
  | _ :: _, [] => false
  | a :: xs, b :: ys => if a == b then pyStrLe xs ys else decide (a.toNat < b.toNat)

/-- stable insertion used by the sorted() model. -/
def insortStr (x : String) : List String → List String
  | [] => [x]
  | y :: ys => if pyStrLe x.data y.data then x :: y :: ys else y :: insortStr x ys

/-- model of Python sorted() on strings (stable, ascending). -/
def sortStr (l : List String) : List String := l.foldr insortStr []

/-- the seen-set deduplication of lines 901-905, keeping first
occurrences in order. -/
def dedupKeepFirst : List String → List String → List String
  | _, [] => []
  | seen, x :: xs =>
    if seen.contains x then dedupKeepFirst seen xs
    else x :: dedupKeepFirst (x :: seen) xs

/-- outcome of opening one seed PDF and extracting its links: fitz.open
raises (caught at lines 890-893), or the link extraction inside the
try/finally raises (there is no except clause there, so it propagates),
or it returns the annotation and text link sets (as lists). -/
inductive SeedOutcome where
  | openFail
  | extractRaise (msg : String)
  | links (ann txt : List String)

structure SeedWorld where
  seed : String → SeedOutcome

/-- translation of process_input_pdf (lines 882-945): a fitz.open failure
is caught and reported as all-zero counts; an exception from the link
extraction propagates (Except.error); otherwise the sorted annotation
links then the sorted text links are merged and deduplicated and each
HTTP link is crawled at depth 0 with one visited set shared across the
seed's links.  The output directory contents fs0 persist on disk across
seeds, so they are threaded in and the final contents returned with the
counts (links found, attempted, succeeded, rendered). -/
def process_input_pdf (sw : SeedWorld) (w : CrawlWorld) (cfg : CrawlCfg) (maxDepth : Nat)
    (fs0 : List String) (pdfPath : String) :
    Except String ((Nat × Nat × Nat × Nat) × List String) :=
  match sw.seed pdfPath with
  | .openFail => .ok ((0, 0, 0, 0), fs0)
  | .extractRaise m => .error m
  | .links ann txt =>
    let links := dedupKeepFirst [] (sortStr ann ++ sortStr txt)
    if links.isEmpty then .ok ((0, 0, 0, 0), fs0)
    else
      let init : CrawlSt × Nat × Nat × Nat := ((⟨[], fs0, []⟩ : CrawlSt), 0, 0, 0)
      let r := links.foldl
        (fun acc u =>
          if !isHttpUrl u then acc
          else
            let res := process_link_run w cfg u 0 maxDepth acc.1
            (res.st, acc.2.1 + res.attempted, acc.2.2.1 + res.succeeded,
             acc.2.2.2 + res.rendered))
        init
      .ok ((links.length, r.2.1, r.2.2.1, r.2.2.2), r.1.fs)

/-- translation of the per-seed loop of main (lines 1010-1023): seeds are
processed in order with no exception handler around the loop body, so an
error from one seed aborts the whole run; otherwise the per-seed counts
are added into the grand totals. -/
def main_loop (sw : SeedWorld) (w : CrawlWorld) (cfg : CrawlCfg) (maxDepth : Nat) :
    List String → List String → Nat × Nat × Nat × Nat →
    Except String (Nat × Nat × Nat × Nat)
  | _, [], totals => .ok totals
  | fs, p :: rest, totals =>
    match process_input_pdf sw w cfg maxDepth fs p with
    | .error e => .error e
    | .ok (counts, fs2) =>
      main_loop sw w cfg maxDepth fs2 rest
        (totals.1 + counts.1, totals.2.1 + counts.2.1,
         totals.2.2.1 + counts.2.2.1, totals.2.2.2 + counts.2.2.2)

/-! Concrete worlds used to evaluate the crawler on explicit inputs. -/

/-- fetch behaviour with every request failing. -/
def fwNone : FetchWorld := ⟨none, .ok⟩

/-- render behaviour with navigation failing. -/
def rwNone : RenderWorld := ⟨none, false, false, false⟩

/-- world in which every network and browser operation fails or returns
nothing. -/
def wNone : CrawlWorld :=
  ⟨fun _ => fwNone, fun _ => none, fun _ => none, fun _ => [], fun _ => rwNone,
   fun _ => none, fun _ => none⟩

/-- configuration with page rendering off, no per-page cap, skip-existing
on and the screenshot fallback on. -/
def cfgBase : CrawlCfg := ⟨false, none, true, true⟩

/-- fresh session state: empty visited set, empty output directory,
empty trace. -/
def st0 : CrawlSt := ⟨[], [], []⟩

/-- world with one generic page whose PDF-link scrape and whose anchor
scrape both find the same PDF link. -/
def w1 : CrawlWorld :=
  { wNone with
    scanPage := fun u => if u == "http://a" then ["http://q.pdf"] else []
    anchors := fun u => if u == "http://a" then some ["http://q.pdf"] else some [] }

/-- a Drive viewer URL and its rewritten direct-download URL. -/
def gUrl : String := "https://drive.google.com/file/d/F/view"

def tUrl : String := "https://drive.google.com/uc?export=download&id=F"

/-- world in which the direct fetch of the Drive viewer URL fails, the
rewritten URL downloads a PDF saved as doc.pdf, and that PDF contains
one HTTP link. -/
def w3 : CrawlWorld :=
  { wNone with
    fetch := fun u =>
      if u == tUrl then ⟨some ⟨"application/pdf", "https://x/doc.pdf", none⟩, .ok⟩ else fwNone
    pdfLinks := fun p => if p == "doc.pdf" then some ["http://v"] else none }

/-- same world except that the direct fetch of the viewer URL itself
already returns the PDF. -/
def w3direct : CrawlWorld :=
  { w3 with
    fetch := fun u =>
      if u == gUrl || u == tUrl then ⟨some ⟨"application/pdf", "https://x/doc.pdf", none⟩, .ok⟩
      else fwNone }

/-- seed world with one seed whose link extraction raises, one seed that
cannot be opened, and otherwise seeds with no links. -/
def sw9 : SeedWorld :=
  ⟨fun p =>
    if p == "bad.pdf" then .extractRaise "mupdf error in get_links"
    else if p == "noopen.pdf" then .openFail
    else .links [] []⟩

/-- number of node-level direct fetches of a URL in a trace. -/
def nodeCount (u : String) (tr : List NetEvent) : Nat := tr.count (NetEvent.nodeFetch u)

/-- invariant relating the state before and after any piece of the
crawl: the trace only grows at the end, the visited set only grows, and
a node-level fetch of a URL is appended at most once, never for a URL
already visited at the start, and only if the URL is visited at the
end. -/
def CrawlInv (s t : CrawlSt) : Prop :=
  (∃ delta, t.trace = s.trace ++ delta) ∧
  (∀ u, u ∈ s.visited → u ∈ t.visited) ∧
  (∀ u, nodeCount u t.trace ≤ nodeCount u s.trace + 1) ∧
  (∀ u, u ∈ s.visited → nodeCount u t.trace = nodeCount u s.trace) ∧
  (∀ u, nodeCount u t.trace ≠ nodeCount u s.trace → u ∈ t.visited)

/-! Theorems. -/

/-- C5: the cloud-doc URL rewriter maps the Drive file-view URL with id
ABC123 to the uc download URL, the Docs edit URL with id XYZ to the PDF
export URL, and the published-sheet pubhtml URL with query gid=0 to the
same URL with /pubhtml replaced by /pub and query gid=0&output=pdf. -/
theorem C5_cloud_rewrite :
    google_direct_download_url "https://drive.google.com/file/d/ABC123/view" =
      some "https://drive.google.com/uc?export=download&id=ABC123" ∧
    google_direct_download_url "https://docs.google.com/document/d/XYZ/edit" =
      some "https://docs.google.com/document/d/XYZ/export?format=pdf" ∧
    google_direct_download_url "https://docs.google.com/spreadsheets/d/e/E1/pubhtml?gid=0" =
      some "https://docs.google.com/spreadsheets/d/e/E1/pub?gid=0&output=pdf" :=
  ⟨by decide, by decide, by decide⟩

/-- C9 at the failing input: a seed that cannot be opened is reported as
zero links, zero attempts, zero successes, zero rendered pages and the
run continues past it; but a seed whose link extraction raises makes the
whole run abort with that error before the next seed is processed,
because process_input_pdf wraps only fitz.open in a try/except and the
main loop has no handler. -/
theorem C9_failing_input_eval :
    process_input_pdf sw9 wNone cfgBase 3 [] "noopen.pdf" = .ok ((0, 0, 0, 0), []) ∧
    main_loop sw9 wNone cfgBase 3 [] ["noopen.pdf", "good.pdf"] (0, 0, 0, 0) =
      .ok (0, 0, 0, 0) ∧
    main_loop sw9 wNone cfgBase 3 [] ["bad.pdf", "good.pdf"] (0, 0, 0, 0) =
      .error "mupdf error in get_links" :=
  ⟨rfl, rfl, rfl⟩

/-- C1 (counterexample): in world w1 the page http://a lists
http://q.pdf both as a scraped PDF link and as an anchor, and the crawl
session starting at http://a downloads http://q.pdf twice over the
network: once in the per-page PDF-link loop, which performs no
visited-set check, and once as a node of the recursion — refuting the
claim that every URL is fetched at most once per session. -/
theorem C1_counterexample :
    ((process_link_run w1 cfgBase "http://a" 0 1 st0).st.trace.filterMap fetchesOf).count
      "http://q.pdf" = 2 := by decide

/-- C3 (counterexample): in world w3 the Drive viewer URL fails its
direct fetch, the rewritten URL downloads the PDF doc.pdf whose only
link is http://v, and the depth budget remains (0 < 1); yet the session
ends with only the viewer URL visited and no fetch of http://v, whereas
in world w3direct, where the direct fetch itself succeeds, http://v is
visited — so the cloud-doc success path does not recurse like the
direct-fetch success path. -/
theorem C3_counterexample :
    (process_link_run w3 cfgBase gUrl 0 1 st0).st.visited = [gUrl] ∧
    ((process_link_run w3 cfgBase gUrl 0 1 st0).st.trace.filterMap fetchesOf).contains
      "http://v" = false ∧
    (process_link_run w3direct cfgBase gUrl 0 1 st0).st.visited.contains "http://v" = true := by
  decide

/-- C4 (counterexample): when page.pdf fails, the screenshot succeeds
and the PNG-to-PDF conversion fails, the render returns failure with
the temporary screenshot T.png still on disk — neither converted nor
deleted. -/
theorem C4_counterexample :
    (render_html_to_pdf_playwright ⟨some "T", false, true, false⟩ "http://x" true true []).1 =
      none ∧
    (render_html_to_pdf_playwright ⟨some "T", false, true, false⟩ "http://x" true true []).2.1 =
      ["T.png"] := by decide

/-- C8: sanitize_filename returns a name in which no slash, backslash,
colon or control character remains (a single path component, so no path
traversal out of the output directory is possible), of length at most
200; an input whose sanitised core is empty yields the generic default
file.pdf, which ends in .pdf. -/
theorem C8_sanitize_filename (s : String) :
    (∀ c ∈ (sanitize_filename s).data, c ≠ '/' ∧ c ≠ '\\' ∧ c ≠ ':' ∧ 31 < c.toNat) ∧
    (sanitize_filename s).data.length ≤ 200 ∧
    (sanitizeCore s = [] →
      sanitize_filename s = "file.pdf" ∧ pyEndsWith (sanitize_filename s) ".pdf" = true) := by
  unfold sanitize_filename
  split
  next h =>
    exact ⟨by decide, by decide, fun _ => ⟨rfl, by decide⟩⟩
  next h =>
    refine ⟨?_, ?_, ?_⟩
    · intro c hc
      have hc2 : c ∈ sanitizeCore s := hc
      simp only [sanitizeCore] at hc2
      have hc3 := List.mem_of_mem_take hc2
      obtain ⟨c0, _, hf⟩ := List.mem_map.mp hc3
      by_cases hb : badFileChar c0 = true
      · rw [if_pos hb] at hf
        subst hf
        decide
      · rw [if_neg hb] at hf
        subst hf
        simp only [badFileChar, Bool.or_eq_true, beq_iff_eq, decide_eq_true_eq,
          not_or] at hb
        obtain ⟨⟨⟨⟨⟨⟨⟨⟨⟨_, _⟩, h3⟩, _⟩, h5⟩, h6⟩, _⟩, _⟩, _⟩, h10⟩ := hb
        exact ⟨h5, h6, h3, by omega⟩
    · show (sanitizeCore s).length ≤ 200
      simp only [sanitizeCore]
      exact List.length_take_le 200 _
    · intro h0
      rw [h0] at h
      simp at h

/-- C8 (witness): the empty name sanitises to the default file.pdf. -/
theorem C8_witness :
    sanitize_filename "" = "file.pdf" ∧ pyEndsWith (sanitize_filename "") ".pdf" = true :=
  (C8_sanitize_filename "").2.2 rfl

theorem startsWithL_self_append (l m : List Char) : startsWithL l (l ++ m) = true := by
  induction l with
  | nil => rfl
  | cons c cs ih => simp [startsWithL, ih]

theorem pdfScan_of_append (l1 l2 : List Char) (h : pdfTailOk l2 = true) :
    pdfScan (l1 ++ '.' :: 'p' :: 'd' :: 'f' :: l2) = true := by
  induction l1 with
  | nil => simp [pdfScan, h]
  | cons c cs ih => simp [List.cons_append, pdfScan, ih]

theorem pdfTailOk_sep (c : Char) (t : List Char) (hc : c = '?' ∨ c = '#')
    (ht : t.contains '\n' = false) : pdfTailOk (c :: t) = true := by
  have hnotin : ¬ '\n' ∈ t := by simpa using ht
  rcases hc with rfl | rfl
  all_goals
    simp only [pdfTailOk, Bool.or_eq_true, Bool.and_eq_true]
    right
    refine ⟨by simp, ?_⟩
    split
    next r heq =>
      exact absurd (by rw [← List.mem_reverse, heq]; exact List.mem_cons_self _ _) hnotin
    next => simpa [nlFree] using hnotin

/-- C6: the PDF classifier returns true whenever the Content-Type header
contains application/pdf case-insensitively, and whenever the
lowercased final URL ends in .pdf followed only by a trailing query or
fragment (raw URLs carry no newline, which the regex dot would reject);
in particular a response with PDF content type but an .html URL, and a
response with no PDF content type but final URL ending report.pdf
followed by a query, are both classified as PDFs. -/
theorem C6_pdf_classifier :
    (∀ r : HttpResp, strContains (lowerStr r.contentType) "application/pdf" = true →
      is_pdf_response r = true) ∧
    (∀ (r : HttpResp) (a q : String),
      lowerStr r.url = a ++ ".pdf" ++ q →
      (q = "" ∨ ∃ t, (q.data = '?' :: t ∨ q.data = '#' :: t) ∧ t.contains '\n' = false) →
      is_pdf_response r = true) ∧
    is_pdf_response ⟨"application/pdf", "https://site/page.html", none⟩ = true ∧
    is_pdf_response ⟨"", "https://site/report.pdf?token=1", none⟩ = true := by
  refine ⟨?_, ?_, by decide, by decide⟩
  · intro r h
    simp [is_pdf_response, h]
  · intro r a q hurl hq
    have htail : pdfTailOk q.data = true := by
      rcases hq with rfl | ⟨t, hqd | hqd, ht⟩
      · rfl
      · rw [hqd]; exact pdfTailOk_sep _ _ (Or.inl rfl) ht
      · rw [hqd]; exact pdfTailOk_sep _ _ (Or.inr rfl) ht
    have hdata : r.url.data.map Char.toLower = a.data ++ '.' :: 'p' :: 'd' :: 'f' :: q.data := by
      have h1 : (lowerStr r.url).data = r.url.data.map Char.toLower := rfl
      rw [← h1, hurl]
      simp [String.data_append]
    have hscan : pdfRegexSearch r.url = true := by
      unfold pdfRegexSearch
      rw [hdata]
      exact pdfScan_of_append _ _ htail
    simp [is_pdf_response, hscan]

/-- C6 (witness): a URL whose path ends in .pdf before a query is
classified as a PDF even with an empty content type. -/
theorem C6_witness : is_pdf_response ⟨"", "http://h/x.pdf?a", none⟩ = true :=
  C6_pdf_classifier.2.1 ⟨"", "http://h/x.pdf?a", none⟩ "http://h/x" "?a" (by decide)
    (Or.inr ⟨['a'], Or.inl rfl, rfl⟩)

theorem stream_eval_none (fw : FetchWorld) (skip : Bool) (fs : List String)
    (h : fw.resp = none) : stream_download_pdf fw skip fs = (none, fs, []) := by
  unfold stream_download_pdf
  rw [h]

theorem stream_eval_notpdf (fw : FetchWorld) (skip : Bool) (fs : List String) (r : HttpResp)
    (h : fw.resp = some r) (hp : is_pdf_response r = false) :
    stream_download_pdf fw skip fs = (none, fs, []) := by
  unfold stream_download_pdf
  rw [h]
  simp only []
  rw [hp]
  rfl

theorem stream_eval_skip (fw : FetchWorld) (skip : Bool) (fs : List String) (r : HttpResp)
    (h : fw.resp = some r) (hp : is_pdf_response r = true)
    (hc : (skip && fs.contains (targetName r)) = true) :
    stream_download_pdf fw skip fs = (some (targetName r), fs, []) := by
  unfold stream_download_pdf
  rw [h]
  simp only []
  rw [hp, hc]
  rfl

theorem stream_eval_ok (fw : FetchWorld) (skip : Bool) (fs : List String) (r : HttpResp)
    (h : fw.resp = some r) (hp : is_pdf_response r = true)
    (hc : (skip && fs.contains (targetName r)) = false) (hw : fw.write = WriteOutcome.ok) :
    stream_download_pdf fw skip fs =
      (some (targetName r), insertName fs (targetName r), [targetName r]) := by
  unfold stream_download_pdf
  rw [h]
  simp only []
  rw [hp, hc, hw]
  rfl

theorem stream_eval_midFail (fw : FetchWorld) (skip : Bool) (fs : List String) (r : HttpResp)
    (h : fw.resp = some r) (hp : is_pdf_response r = true)
    (hc : (skip && fs.contains (targetName r)) = false)
    (hw : fw.write = WriteOutcome.midFail) :
    stream_download_pdf fw skip fs =
      (none, insertName fs (targetName r), [targetName r]) := by
  unfold stream_download_pdf
  rw [h]
  simp only []
  rw [hp, hc, hw]
  rfl

theorem stream_eval_openFail (fw : FetchWorld) (skip : Bool) (fs : List String) (r : HttpResp)
    (h : fw.resp = some r) (hp : is_pdf_response r = true)
    (hc : (skip && fs.contains (targetName r)) = false)
    (hw : fw.write = WriteOutcome.openFail) :
    stream_download_pdf fw skip fs = (none, fs, []) := by
  unfold stream_download_pdf
  rw [h]
  simp only []
  rw [hp, hc, hw]
  rfl

theorem render_eval_none (w : RenderWorld) (url : String) (skip sf : Bool) (fs : List String)
    (h : w.nav = none) : render_html_to_pdf_playwright w url skip sf fs = (none, fs, []) := by
  unfold render_html_to_pdf_playwright
  rw [h]

theorem render_eval_skip (w : RenderWorld) (url : String) (skip sf : Bool) (fs : List String)
    (t : String) (h : w.nav = some t)
    (hc : (skip && fs.contains (build_filename t url)) = true) :
    render_html_to_pdf_playwright w url skip sf fs = (some (build_filename t url), fs, []) := by
  unfold render_html_to_pdf_playwright
  rw [h]
  simp only []
  rw [hc]
  rfl

theorem render_eval_pdfOk (w : RenderWorld) (url : String) (skip sf : Bool) (fs : List String)
    (t : String) (h : w.nav = some t)
    (hc : (skip && fs.contains (build_filename t url)) = false) (hp : w.pdfOk = true) :
    render_html_to_pdf_playwright w url skip sf fs =
      (some (build_filename t url), insertName fs (build_filename t url),
        [build_filename t url]) := by
  unfold render_html_to_pdf_playwright
  rw [h]
  simp only []
  rw [hc, hp]
  rfl

theorem render_eval_noshot (w : RenderWorld) (url : String) (skip : Bool) (fs : List String)
    (t : String) (h : w.nav = some t)
    (hc : (skip && fs.contains (build_filename t url)) = false) (hp : w.pdfOk = false)
    (hs : w.shotOk = false) :
    render_html_to_pdf_playwright w url skip true fs = (none, fs, []) := by
  unfold render_html_to_pdf_playwright
  rw [h]
  simp only []
  rw [hc, hp, hs]
  rfl

theorem render_eval_convert (w : RenderWorld) (url : String) (skip : Bool) (fs : List String)
    (t : String) (h : w.nav = some t)
    (hc : (skip && fs.contains (build_filename t url)) = false) (hp : w.pdfOk = false)
    (hs : w.shotOk = true) (hcv : w.convertOk = true) :
    render_html_to_pdf_playwright w url skip true fs =
      (some (build_filename t url),
        insertName
          (removeName (insertName fs (pyWithSuffix (build_filename t url) ".png"))
            (pyWithSuffix (build_filename t url) ".png"))
          (build_filename t url),
        [pyWithSuffix (build_filename t url) ".png", build_filename t url]) := by
  unfold render_html_to_pdf_playwright
  rw [h]
  simp only []
  rw [hc, hp, hs, hcv]
  rfl

theorem render_eval_noconvert (w : RenderWorld) (url : String) (skip : Bool) (fs : List String)
    (t : String) (h : w.nav = some t)
    (hc : (skip && fs.contains (build_filename t url)) = false) (hp : w.pdfOk = false)
    (hs : w.shotOk = true) (hcv : w.convertOk = false) :
    render_html_to_pdf_playwright w url skip true fs =
      (none, insertName fs (pyWithSuffix (build_filename t url) ".png"),
        [pyWithSuffix (build_filename t url) ".png"]) := by
  unfold render_html_to_pdf_playwright
  rw [h]
  simp only []
  rw [hc, hp, hs, hcv]
  rfl

theorem render_eval_nofb (w : RenderWorld) (url : String) (skip : Bool) (fs : List String)
    (t : String) (h : w.nav = some t)
    (hc : (skip && fs.contains (build_filename t url)) = false) (hp : w.pdfOk = false) :
    render_html_to_pdf_playwright w url skip false fs = (none, fs, []) := by
  unfold render_html_to_pdf_playwright
  rw [h]
  simp only []
  rw [hc, hp]
  rfl

theorem insertName_contains_self (fs : List String) (n : String) :
    (insertName fs n).contains n = true := by
  unfold insertName
  split
  next h => exact h
  next h => simp

theorem mem_insertName (fs : List String) (n a : String) :
    a ∈ insertName fs n ↔ a = n ∨ a ∈ fs := by
  unfold insertName
  split
  next h =>
    constructor
    · exact Or.inr
    · rintro (rfl | ha)
      · simpa using h
      · exact ha
  next h => simp [List.mem_cons]

theorem removeName_not_mem (fs : List String) (n : String) : n ∉ removeName fs n := by
  simp [removeName]

theorem mem_insertName_self (fs : List String) (n : String) : n ∈ insertName fs n :=
  (mem_insertName fs n n).mpr (Or.inl rfl)

/-- C7: with skip-existing enabled, a fetch whose PDF response derives a
filename already present in the output directory returns that path with
no write and no directory change; likewise a page render whose derived
filename is already present; consequently a second identical fetch run
leaves the file set unchanged and performs zero writes, and a second
identical render run after a successful one returns the same path with
zero writes. -/
theorem C7_skip_existing_idempotent :
    (∀ (fw : FetchWorld) (r : HttpResp) (fs : List String),
      fw.resp = some r → is_pdf_response r = true → fs.contains (targetName r) = true →
      stream_download_pdf fw true fs = (some (targetName r), fs, [])) ∧
    (∀ (w : RenderWorld) (url t : String) (sf : Bool) (fs : List String),
      w.nav = some t → fs.contains (build_filename t url) = true →
      render_html_to_pdf_playwright w url true sf fs =
        (some (build_filename t url), fs, [])) ∧
    (∀ (fw : FetchWorld) (fs : List String),
      (stream_download_pdf fw true ((stream_download_pdf fw true fs).2.1)).2.1 =
        (stream_download_pdf fw true fs).2.1 ∧
      (stream_download_pdf fw true ((stream_download_pdf fw true fs).2.1)).2.2 = []) ∧
    (∀ (w : RenderWorld) (url : String) (sf : Bool) (fs : List String) (p : String),
      (render_html_to_pdf_playwright w url true sf fs).1 = some p →
      render_html_to_pdf_playwright w url true sf
          ((render_html_to_pdf_playwright w url true sf fs).2.1) =
        (some p, (render_html_to_pdf_playwright w url true sf fs).2.1, [])) := by
  refine ⟨?_, ?_, ?_, ?_⟩
  · intro fw r fs h hp hc
    exact stream_eval_skip fw true fs r h hp (by simpa using hc)
  · intro w url t sf fs h hc
    exact render_eval_skip w url true sf fs t h (by simpa using hc)
  · intro fw fs
    cases hr : fw.resp with
    | none =>
      have e : ∀ fs2, stream_download_pdf fw true fs2 = (none, fs2, []) :=
        fun fs2 => stream_eval_none fw true fs2 hr
      simp [e]
    | some r =>
      cases hp : is_pdf_response r with
      | false =>
        have e : ∀ fs2, stream_download_pdf fw true fs2 = (none, fs2, []) :=
          fun fs2 => stream_eval_notpdf fw true fs2 r hr hp
        simp [e]
      | true =>
        cases hc : fs.contains (targetName r) with
        | true =>
          have e := stream_eval_skip fw true fs r hr hp (by simpa using hc)
          simp [e]
        | false =>
          cases hw : fw.write with
          | ok =>
            have e := stream_eval_ok fw true fs r hr hp (by simpa using hc) hw
            have e2 := stream_eval_skip fw true (insertName fs (targetName r)) r hr hp
              (by simp [mem_insertName_self])
            simp [e, e2]
          | midFail =>
            have e := stream_eval_midFail fw true fs r hr hp (by simpa using hc) hw
            have e2 := stream_eval_skip fw true (insertName fs (targetName r)) r hr hp
              (by simp [mem_insertName_self])
            simp [e, e2]
          | openFail =>
            have e := stream_eval_openFail fw true fs r hr hp (by simpa using hc) hw
            simp [e]
  · intro w url sf fs p h1
    cases hn : w.nav with
    | none =>
      rw [render_eval_none w url true sf fs hn] at h1
      exact absurd h1 (by simp)
    | some t =>
      cases hc : fs.contains (build_filename t url) with
      | true =>
        have e := render_eval_skip w url true sf fs t hn (by simpa using hc)
        rw [e] at h1
        obtain rfl : build_filename t url = p := by simpa using h1
        simp [e]
      | false =>
        cases hpdf : w.pdfOk with
        | true =>
          have e := render_eval_pdfOk w url true sf fs t hn (by simpa using hc) hpdf
          rw [e] at h1
          obtain rfl : build_filename t url = p := by simpa using h1
          have e2 := render_eval_skip w url true sf
            (insertName fs (build_filename t url)) t hn
            (by simp [mem_insertName_self])
          simp [e, e2]
        | false =>
          cases sf with
          | false =>
            rw [render_eval_nofb w url true fs t hn (by simpa using hc) hpdf] at h1
            exact absurd h1 (by simp)
          | true =>
            cases hs : w.shotOk with
            | false =>
              rw [render_eval_noshot w url true fs t hn (by simpa using hc) hpdf hs] at h1
              exact absurd h1 (by simp)
            | true =>
              cases hcv : w.convertOk with
              | false =>
                rw [render_eval_noconvert w url true fs t hn (by simpa using hc) hpdf hs hcv]
                  at h1
                exact absurd h1 (by simp)
              | true =>
                have e := render_eval_convert w url true fs t hn (by simpa using hc) hpdf hs hcv
                rw [e] at h1
                obtain rfl : build_filename t url = p := by simpa using h1
                have e2 := render_eval_skip w url true true
                  (insertName
                    (removeName (insertName fs (pyWithSuffix (build_filename t url) ".png"))
                      (pyWithSuffix (build_filename t url) ".png"))
                    (build_filename t url)) t hn
                  (by simp [mem_insertName_self])
                simp [e, e2]

/-- C7 (witness): a fetch of a PDF response whose derived filename
doc.pdf is already present returns the existing path with no writes. -/
theorem C7_witness :
    stream_download_pdf ⟨some ⟨"application/pdf", "https://h/doc.pdf", none⟩, .ok⟩ true
      ["doc.pdf"] = (some "doc.pdf", ["doc.pdf"], []) := by
  have h := C7_skip_existing_idempotent.1
    ⟨some ⟨"application/pdf", "https://h/doc.pdf", none⟩, .ok⟩
    ⟨"application/pdf", "https://h/doc.pdf", none⟩ ["doc.pdf"] rfl (by decide) (by decide)
  have ht : targetName ⟨"application/pdf", "https://h/doc.pdf", none⟩ = "doc.pdf" := by decide
  rw [ht] at h
  exact h

theorem mk_append (a b : List Char) : String.mk a ++ String.mk b = String.mk (a ++ b) := rfl

theorem lowerStr_append (s t : String) : lowerStr (s ++ t) = lowerStr s ++ lowerStr t := by
  unfold lowerStr
  rw [mk_append]
  exact congrArg String.mk (List.map_append _ _ _)

theorem pyEndsWith_append (s t : String) : pyEndsWith (s ++ t) t = true := by
  unfold pyEndsWith
  rw [String.data_append, List.reverse_append]
  exact startsWithL_self_append _ _

theorem build_filename_pdf (t url : String) :
    pyEndsWith (lowerStr (build_filename t url)) ".pdf" = true := by
  have key : ∀ bn : String,
      pyEndsWith
        (lowerStr (if (!pyEndsWith (lowerStr bn) ".pdf") = true then bn ++ ".pdf" else bn))
        ".pdf" = true := by
    intro bn
    split
    next h =>
      have hl : lowerStr ".pdf" = ".pdf" := by decide
      rw [lowerStr_append, hl]
      exact pyEndsWith_append _ _
    next h => simpa using h
  simp only [build_filename]
  exact key _

theorem pyWithSuffix_ends (name suffix : String) :
    pyEndsWith (pyWithSuffix name suffix) suffix = true := by
  simp only [pyWithSuffix]
  split
  next stemRev heq =>
    split
    next => exact pyEndsWith_append _ _
    next => exact pyEndsWith_append (String.mk stemRev.reverse) suffix
  next => exact pyEndsWith_append _ _

theorem startsWithL_head (p : Char) (ps l : List Char)
    (h : startsWithL (p :: ps) l = true) : ∃ tl, l = p :: tl := by
  cases l with
  | nil => simp [startsWithL] at h
  | cons c2 l2 =>
    simp only [startsWithL, Bool.and_eq_true, beq_iff_eq] at h
    exact ⟨l2, by rw [h.1]⟩

theorem png_pdf_distinct (a : String) (ha : pyEndsWith (lowerStr a) ".pdf" = true)
    (hb : pyEndsWith a ".png" = true) : False := by
  unfold pyEndsWith at ha hb
  obtain ⟨tl2, h2⟩ := startsWithL_head 'g' ['n', 'p', '.'] a.data.reverse hb
  obtain ⟨tl1, h1⟩ := startsWithL_head 'f' ['d', 'p', '.'] (lowerStr a).data.reverse ha
  have h3 : (lowerStr a).data.reverse = 'g' :: tl2.map Char.toLower := by
    show (a.data.map Char.toLower).reverse = _
    calc (a.data.map Char.toLower).reverse
        = a.data.reverse.map Char.toLower := by simp
      _ = ('g' :: tl2).map Char.toLower := by rw [h2]
      _ = 'g' :: tl2.map Char.toLower := by
        have hg : Char.toLower 'g' = 'g' := by decide
        rw [List.map_cons, hg]
  rw [h3] at h1
  injection h1 with hh _
  exact absurd hh (by decide)

/-- C4 (amended): when the screenshot fallback runs (navigation
succeeded, the target file was not skipped as already existing,
page.pdf failed and the fallback is enabled), a failing screenshot
leaves no artifact and returns failure, and a successful screenshot
followed by a successful conversion produces the final PDF and removes
the temporary PNG; but when the PNG-to-PDF conversion fails the
temporary PNG is deliberately kept on disk (the source logs Keeping
PNG) and failure is returned, so the cleanup obligation holds on every
fallback path except the conversion-failure path. -/
theorem C4_amended_cleanup (w : RenderWorld) (url t : String) (skipE : Bool)
    (fs : List String) (hnav : w.nav = some t)
    (hskip : (skipE && fs.contains (build_filename t url)) = false)
    (hpdf : w.pdfOk = false) :
    (w.shotOk = false →
      render_html_to_pdf_playwright w url skipE true fs = (none, fs, [])) ∧
    (w.shotOk = true → w.convertOk = true →
      (render_html_to_pdf_playwright w url skipE true fs).1 =
        some (build_filename t url) ∧
      pyWithSuffix (build_filename t url) ".png" ∉
        (render_html_to_pdf_playwright w url skipE true fs).2.1 ∧
      build_filename t url ∈ (render_html_to_pdf_playwright w url skipE true fs).2.1) ∧
    (w.shotOk = true → w.convertOk = false →
      (render_html_to_pdf_playwright w url skipE true fs).1 = none ∧
      pyWithSuffix (build_filename t url) ".png" ∈
        (render_html_to_pdf_playwright w url skipE true fs).2.1) := by
  refine ⟨?_, ?_, ?_⟩
  · intro hs
    exact render_eval_noshot w url skipE fs t hnav hskip hpdf hs
  · intro hs hcv
    have e := render_eval_convert w url skipE fs t hnav hskip hpdf hs hcv
    rw [e]
    refine ⟨rfl, ?_, mem_insertName_self _ _⟩
    intro hmem
    rcases (mem_insertName _ _ _).mp hmem with heq | hmem2
    · have hp2 := pyWithSuffix_ends (build_filename t url) ".png"
      rw [heq] at hp2
      exact png_pdf_distinct (build_filename t url) (build_filename_pdf t url) hp2
    · exact removeName_not_mem _ _ hmem2
  · intro hs hcv
    have e := render_eval_noconvert w url skipE fs t hnav hskip hpdf hs hcv
    rw [e]
    exact ⟨rfl, mem_insertName_self _ _⟩

/-- C4 (witness): with title T, failing print, successful screenshot and
successful conversion the final PDF is present and the temporary PNG is
gone. -/
theorem C4_witness :
    (render_html_to_pdf_playwright ⟨some "T", false, true, true⟩ "http://x" true true []).1 =
      some (build_filename "T" "http://x") ∧
    pyWithSuffix (build_filename "T" "http://x") ".png" ∉
      (render_html_to_pdf_playwright ⟨some "T", false, true, true⟩ "http://x" true true
        []).2.1 ∧
    build_filename "T" "http://x" ∈
      (render_html_to_pdf_playwright ⟨some "T", false, true, true⟩ "http://x" true true
        []).2.1 :=
  (C4_amended_cleanup ⟨some "T", false, true, true⟩ "http://x" "T" true [] rfl (by decide)
    rfl).2.1 rfl rfl

theorem crawlInv_rfl (s : CrawlSt) : CrawlInv s s :=
  ⟨⟨[], by simp⟩, fun _ h => h, fun _ => Nat.le_succ _, fun _ _ => rfl, fun _ h => absurd rfl h⟩

theorem crawlInv_trans {s t v : CrawlSt} (h1 : CrawlInv s t) (h2 : CrawlInv t v) :
    CrawlInv s v := by
  obtain ⟨⟨d1, hd1⟩, hm1, hb1, he1, hv1⟩ := h1
  obtain ⟨⟨d2, hd2⟩, hm2, hb2, he2, hv2⟩ := h2
  refine ⟨⟨d1 ++ d2, by rw [hd2, hd1, List.append_assoc]⟩,
    fun u hu => hm2 u (hm1 u hu), ?_, ?_, ?_⟩
  · intro u
    by_cases hc : nodeCount u t.trace = nodeCount u s.trace
    · have := hb2 u
      omega
    · have hvt := hv1 u hc
      have := he2 u hvt
      have := hb1 u
      omega
  · intro u hu
    rw [he2 u (hm1 u hu), he1 u hu]
  · intro u hne
    by_cases hc : nodeCount u v.trace = nodeCount u t.trace
    · rw [hc] at hne
      exact hm2 u (hv1 u hne)
    · exact hv2 u hc

theorem nodeCount_append_one (u : String) (tr : List NetEvent) (e : NetEvent) :
    nodeCount u (tr ++ [e]) =
      nodeCount u tr + (if e == NetEvent.nodeFetch u then 1 else 0) := by
  simp [nodeCount, List.count_append, List.count_cons]

theorem crawlInv_log (s : CrawlSt) (e : NetEvent) (he : ∀ u, ¬(e = NetEvent.nodeFetch u)) :
    CrawlInv s (logEv s e) := by
  have hcount : ∀ u, nodeCount u (logEv s e).trace = nodeCount u s.trace := by
    intro u
    show nodeCount u (s.trace ++ [e]) = _
    rw [nodeCount_append_one]
    have hb : (e == NetEvent.nodeFetch u) = false := by
      simpa using he u
    rw [hb]
    simp
  exact ⟨⟨[e], rfl⟩, fun _ h => h, fun u => by rw [hcount u]; omega,
    fun u _ => hcount u, fun u hne => absurd (hcount u) hne⟩

theorem crawlInv_setFs (s : CrawlSt) (fs : List String) : CrawlInv s { s with fs := fs } :=
  ⟨⟨[], by simp⟩, fun _ h => h, fun _ => Nat.le_succ _, fun _ _ => rfl, fun _ h => absurd rfl h⟩

theorem crawlInv_logNF {s t : CrawlSt} (h : CrawlInv s t) (e : NetEvent)
    (he : ∀ u, ¬(e = NetEvent.nodeFetch u)) : CrawlInv s (logEv t e) :=
  crawlInv_trans h (crawlInv_log t e he)

theorem crawlInv_withFs {s t : CrawlSt} (h : CrawlInv s t) (fs : List String) :
    CrawlInv s { t with fs := fs } :=
  crawlInv_trans h (crawlInv_setFs t fs)

theorem crawlInv_enter (s : CrawlSt) (url : String) (h : url ∉ s.visited) :
    CrawlInv s (logEv { s with visited := url :: s.visited } (NetEvent.nodeFetch url)) := by
  have htr : (logEv { s with visited := url :: s.visited } (NetEvent.nodeFetch url)).trace =
      s.trace ++ [NetEvent.nodeFetch url] := rfl
  have hvis : (logEv { s with visited := url :: s.visited }
      (NetEvent.nodeFetch url)).visited = url :: s.visited := rfl
  refine ⟨⟨[NetEvent.nodeFetch url], htr⟩, ?_, ?_, ?_, ?_⟩
  · intro u hu
    rw [hvis]
    exact List.mem_cons_of_mem _ hu
  · intro u
    rw [htr, nodeCount_append_one]
    split <;> omega
  · intro u hu
    rw [htr, nodeCount_append_one]
    have hne : ¬(url = u) := fun he2 => h (he2 ▸ hu)
    have hb : (NetEvent.nodeFetch url == NetEvent.nodeFetch u) = false := by
      simpa using hne
    rw [hb]
    simp
  · intro u hne
    rw [hvis]
    rw [htr, nodeCount_append_one] at hne
    by_cases he2 : url = u
    · subst he2
      exact List.mem_cons_self _ _
    · have hb : (NetEvent.nodeFetch url == NetEvent.nodeFetch u) = false := by
        simpa using he2
      rw [hb] at hne
      simp at hne

theorem foldl_pres {α β : Type} (P : α → Prop) (f : α → β → α)
    (hf : ∀ a b, P a → P (f a b)) : ∀ (l : List β) (a : α), P a → P (l.foldl f a) := by
  intro l
  induction l with
  | nil => exact fun _ h => h
  | cons b bs ih => exact fun a h => ih (f a b) (hf a b h)

theorem dlStep_inv (w : CrawlWorld) (cfg : CrawlCfg) (acc : CrawlSt × Nat × Nat)
    (pu : String) : CrawlInv acc.1 (dlStep w cfg acc pu).1 :=
  crawlInv_withFs (crawlInv_logNF (crawlInv_rfl acc.1) _ (fun _ => by simp)) _

theorem pdfStep_inv (go : String → CrawlSt → CrawlRes)
    (hgo : ∀ u s2, CrawlInv s2 (go u s2).st) (acc : CrawlRes) (su : String) :
    CrawlInv acc.st (pdfStep go acc su).st :=
  hgo su acc.st

theorem crawlStep_inv (go : String → CrawlSt → CrawlRes)
    (hgo : ∀ u s2, CrawlInv s2 (go u s2).st) (acc : CrawlRes) (su : String) :
    CrawlInv acc.st (crawlStep go acc su).st := by
  unfold crawlStep
  split
  · exact crawlInv_rfl acc.st
  · exact hgo su acc.st

theorem pdfBranch_inv (w : CrawlWorld) (go : String → CrawlSt → CrawlRes) (b : Bool)
    (p : String) (st : CrawlSt) (hgo : ∀ u s2, CrawlInv s2 (go u s2).st) :
    CrawlInv st (pdfBranch w go b p st).st := by
  simp only [pdfBranch]
  split
  next =>
    split
    next => exact crawlInv_rfl st
    next =>
      exact foldl_pres (fun acc : CrawlRes => CrawlInv st acc.st) (pdfStep go)
        (fun acc su hacc => crawlInv_trans hacc (pdfStep_inv go hgo acc su)) _
        ⟨st, 0, 0, 0⟩ (crawlInv_rfl st)
  next => exact crawlInv_rfl st

theorem googleBranch_inv (w : CrawlWorld) (cfg : CrawlCfg) (url : String) (st : CrawlSt) :
    CrawlInv st (googleBranch w cfg url st).st := by
  simp only [googleBranch]
  split
  next t2 _ =>
    split
    next =>
      exact crawlInv_withFs (crawlInv_logNF (crawlInv_rfl st) _ (fun _ => by simp)) _
    next =>
      split
      next =>
        exact crawlInv_logNF
          (crawlInv_withFs (crawlInv_logNF (crawlInv_rfl st) _ (fun _ => by simp)) _) _
          (fun _ => by simp)
      next =>
        split
        next =>
          exact crawlInv_logNF (crawlInv_logNF
            (crawlInv_withFs (crawlInv_logNF (crawlInv_rfl st) _ (fun _ => by simp)) _) _
            (fun _ => by simp)) _ (fun _ => by simp)
        next =>
          exact crawlInv_logNF (crawlInv_logNF
            (crawlInv_withFs (crawlInv_logNF (crawlInv_rfl st) _ (fun _ => by simp)) _) _
            (fun _ => by simp)) _ (fun _ => by simp)
  next =>
    split
    next => exact crawlInv_logNF (crawlInv_rfl st) _ (fun _ => by simp)
    next => exact crawlInv_logNF (crawlInv_rfl st) _ (fun _ => by simp)

theorem genericBranch_inv (w : CrawlWorld) (cfg : CrawlCfg)
    (go : String → CrawlSt → CrawlRes) (b : Bool) (url : String) (st : CrawlSt)
    (hgo : ∀ u s2, CrawlInv s2 (go u s2).st) :
    CrawlInv st (genericBranch w cfg go b url st).st := by
  have hdl : ∀ (l : List String) (acc : CrawlSt × Nat × Nat), CrawlInv st acc.1 →
      CrawlInv st (l.foldl (dlStep w cfg) acc).1 :=
    foldl_pres (fun a : CrawlSt × Nat × Nat => CrawlInv st a.1) (dlStep w cfg)
      (fun a pu ha => crawlInv_trans ha (dlStep_inv w cfg a pu))
  have hcs : ∀ (l : List String) (acc : CrawlRes), CrawlInv st acc.st →
      CrawlInv st (l.foldl (crawlStep go) acc).st :=
    foldl_pres (fun a : CrawlRes => CrawlInv st a.st) (crawlStep go)
      (fun a su ha => crawlInv_trans ha (crawlStep_inv go hgo a su))
  have h0 : CrawlInv st (logEv st (NetEvent.pageScan url)) :=
    crawlInv_log st _ (fun _ => by simp)
  simp only [genericBranch]
  repeat' split
  all_goals
    first
      | exact hdl _ _ h0
      | exact crawlInv_withFs (crawlInv_logNF (hdl _ _ h0) _ (fun _ => by simp)) _
      | exact crawlInv_logNF (hdl _ _ h0) _ (fun _ => by simp)
      | exact crawlInv_logNF
          (crawlInv_withFs (crawlInv_logNF (hdl _ _ h0) _ (fun _ => by simp)) _) _
          (fun _ => by simp)
      | exact hcs _ _ (crawlInv_withFs (crawlInv_logNF (hdl _ _ h0) _ (fun _ => by simp)) _)
      | exact hcs _ _ (crawlInv_logNF (hdl _ _ h0) _ (fun _ => by simp))
      | exact hcs _ _ (crawlInv_logNF
          (crawlInv_withFs (crawlInv_logNF (hdl _ _ h0) _ (fun _ => by simp)) _) _
          (fun _ => by simp))
      | simp_all

theorem process_link_inv (w : CrawlWorld) (cfg : CrawlCfg) :
    ∀ (fuel : Nat) (url : String) (c d : Nat) (st : CrawlSt),
      CrawlInv st (process_link w cfg fuel url c d st).st := by
  intro fuel
  induction fuel with
  | zero => exact fun url c d st => crawlInv_rfl st
  | succ fuel ih =>
    intro url c d st
    simp only [process_link]
    split
    next => exact crawlInv_rfl st
    next hvis =>
      split
      next => exact crawlInv_rfl st
      next =>
        have hv : url ∉ st.visited := by simpa using hvis
        have hentry := crawlInv_enter st url hv
        split
        next path _ =>
          exact crawlInv_trans (crawlInv_withFs hentry _)
            (pdfBranch_inv w _ _ path _ (fun u s2 => ih u (c + 1) d s2))
        next =>
          split
          next =>
            exact crawlInv_trans (crawlInv_withFs hentry _) (googleBranch_inv w cfg url _)
          next =>
            exact crawlInv_trans (crawlInv_withFs hentry _)
              (genericBranch_inv w cfg _ _ url _ (fun u s2 => ih u (c + 1) d s2))

theorem process_link_visited_noop (w : CrawlWorld) (cfg : CrawlCfg) (fuel : Nat)
    (url : String) (c d : Nat) (st : CrawlSt) (h : url ∈ st.visited) :
    process_link w cfg fuel url c d st = ⟨st, 0, 0, 0⟩ := by
  cases fuel with
  | zero => rfl
  | succ fuel =>
    have hc : st.visited.contains url = true := by simpa using h
    simp only [process_link, hc]
    rfl

/-- C1 (amended): the visited set gives node-level deduplication: a
process_link call on a URL already in the session's visited set is an
immediate no-op returning (0, 0, 0) with the state untouched, the
membership test and insertion happen before any network call, and in a
session started with an empty trace every URL receives at most one
node-level direct fetch; PDF links scraped from generic pages, however,
are downloaded without a visited-set check (see the counterexample), so
only node-level fetches are deduplicated and the attempt count counts
download attempts rather than distinct URLs. -/
theorem C1_amended_node_dedup (w : CrawlWorld) (cfg : CrawlCfg) (url : String) (c d : Nat)
    (st : CrawlSt) :
    (url ∈ st.visited → process_link_run w cfg url c d st = ⟨st, 0, 0, 0⟩) ∧
    (st.trace = [] →
      ∀ u, nodeCount u (process_link_run w cfg url c d st).st.trace ≤ 1) := by
  constructor
  · intro h
    exact process_link_visited_noop w cfg _ url c d st h
  · intro h0 u
    have hb := (process_link_inv w cfg (d + 1 - c) url c d st).2.2.1 u
    rw [h0] at hb
    simpa [process_link_run, nodeCount] using hb

/-- C1 (witness): a call on an already-visited URL is a no-op, and the
session of the counterexample world still node-fetches the duplicated
URL at most once. -/
theorem C1_witness :
    process_link_run wNone cfgBase "http://a" 0 1 ⟨["http://a"], [], []⟩ =
      ⟨⟨["http://a"], [], []⟩, 0, 0, 0⟩ ∧
    nodeCount "http://q.pdf" (process_link_run w1 cfgBase "http://a" 0 1 st0).st.trace ≤ 1 :=
  ⟨(C1_amended_node_dedup wNone cfgBase "http://a" 0 1 ⟨["http://a"], [], []⟩).1 (by simp),
   (C1_amended_node_dedup w1 cfgBase "http://a" 0 1 st0).2 rfl "http://q.pdf"⟩

theorem pdfBranch_st_false (w : CrawlWorld) (go : String → CrawlSt → CrawlRes) (p : String)
    (st : CrawlSt) : (pdfBranch w go false p st).st = st := rfl

theorem googleBranch_visited (w : CrawlWorld) (cfg : CrawlCfg) (url : String) (st : CrawlSt) :
    (googleBranch w cfg url st).st.visited = st.visited := by
  simp only [googleBranch]
  repeat' split
  all_goals rfl

theorem genericBranch_visited_false (w : CrawlWorld) (cfg : CrawlCfg)
    (go : String → CrawlSt → CrawlRes) (url : String) (st : CrawlSt) :
    (genericBranch w cfg go false url st).st.visited = st.visited := by
  have hdl : ∀ (l : List String) (acc : CrawlSt × Nat × Nat),
      acc.1.visited = st.visited → (l.foldl (dlStep w cfg) acc).1.visited = st.visited :=
    foldl_pres (fun a : CrawlSt × Nat × Nat => a.1.visited = st.visited) (dlStep w cfg)
      (fun a pu ha => ha)
  simp only [genericBranch]
  repeat' split
  all_goals
    first
      | (refine hdl _ _ ?_; rfl)
      | simp_all

/-- one unfolding of process_link on a fresh URL within the depth bound:
the node's own direct fetch is the first event appended to the trace,
and when the node is at the depth bound (no recursion allowed) the only
change to the visited set is the node itself. -/
theorem process_link_step (w : CrawlWorld) (cfg : CrawlCfg) (fuel : Nat) (url : String)
    (c d : Nat) (st : CrawlSt) (hv : url ∉ st.visited) (hd : ¬(d < c)) :
    (∃ rest, (process_link w cfg (fuel + 1) url c d st).st.trace =
      st.trace ++ NetEvent.nodeFetch url :: rest) ∧
    (¬(c < d) →
      (process_link w cfg (fuel + 1) url c d st).st.visited = url :: st.visited) := by
  have hc : st.visited.contains url = false := by simpa using hv
  simp only [process_link, hc]
  rw [if_neg (by simp), if_neg hd]
  constructor
  · split
    next path _ =>
      obtain ⟨delta, hdelta⟩ := (pdfBranch_inv w _ _ path _
        (fun u s2 => process_link_inv w cfg fuel u (c + 1) d s2)).1
      exact ⟨delta, by rw [hdelta]; simp [logEv]⟩
    next =>
      split
      next =>
        obtain ⟨delta, hdelta⟩ := (googleBranch_inv w cfg url _).1
        exact ⟨delta, by rw [hdelta]; simp [logEv]⟩
      next =>
        obtain ⟨delta, hdelta⟩ := (genericBranch_inv w cfg _ _ url _
          (fun u s2 => process_link_inv w cfg fuel u (c + 1) d s2)).1
        exact ⟨delta, by rw [hdelta]; simp [logEv]⟩
  · intro hcd
    have hb : decide (c < d) = false := decide_eq_false hcd
    split
    next path _ =>
      rw [hb, pdfBranch_st_false]
      rfl
    next =>
      split
      next =>
        rw [googleBranch_visited]
        rfl
      next =>
        rw [hb, genericBranch_visited_false]
        rfl

/-- C2: depth bounding of the crawl: a process_link call with
current_depth greater than max_depth is an immediate no-op returning
(0, 0, 0) with the state untouched; a fresh node processed at
current_depth equal to max_depth still performs its own direct fetch (a
node-fetch of the URL is the first event it appends to the trace) but
its children are pruned: the visited set gains exactly the node itself,
recursion into discovered links happening only when current_depth is
below max_depth (children then run at current_depth + 1). -/
theorem C2_depth_bound (w : CrawlWorld) (cfg : CrawlCfg) (url : String) (c d : Nat)
    (st : CrawlSt) :
    (d < c → process_link_run w cfg url c d st = ⟨st, 0, 0, 0⟩) ∧
    (c = d → url ∉ st.visited →
      (∃ rest, (process_link_run w cfg url c d st).st.trace =
        st.trace ++ NetEvent.nodeFetch url :: rest) ∧
      (process_link_run w cfg url c d st).st.visited = url :: st.visited) := by
  constructor
  · intro h
    unfold process_link_run
    have h0 : d + 1 - c = 0 := by omega
    rw [h0]
    rfl
  · rintro rfl hv
    unfold process_link_run
    have h1 : c + 1 - c = 0 + 1 := by omega
    rw [h1]
    have hstep := process_link_step w cfg 0 url c c st hv (by omega)
    exact ⟨hstep.1, hstep.2 (by omega)⟩

/-- C2 (witness): with every request failing, a call above the depth
bound is a no-op, and a fresh node at the depth bound fetches itself
and visits only itself. -/
theorem C2_witness :
    process_link_run wNone cfgBase "http://z" 3 2 st0 = ⟨st0, 0, 0, 0⟩ ∧
    (∃ rest, (process_link_run wNone cfgBase "http://z" 1 1 st0).st.trace =
      st0.trace ++ NetEvent.nodeFetch "http://z" :: rest) ∧
    (process_link_run wNone cfgBase "http://z" 1 1 st0).st.visited =
      "http://z" :: st0.visited :=
  ⟨(C2_depth_bound wNone cfgBase "http://z" 3 2 st0).1 (by omega),
   (C2_depth_bound wNone cfgBase "http://z" 1 1 st0).2 rfl (by simp [st0])⟩

theorem stream_isSome (fw : FetchWorld) (skip : Bool) (fs : List String) (r : HttpResp)
    (hr : fw.resp = some r) (hp : is_pdf_response r = true)
    (hw : fw.write = WriteOutcome.ok) :
    (stream_download_pdf fw skip fs).1 = some (targetName r) := by
  by_cases hc : (skip && fs.contains (targetName r)) = true
  · rw [stream_eval_skip fw skip fs r hr hp hc]
  · rw [stream_eval_ok fw skip fs r hr hp (by simpa using hc) hw]

/-- when the node fetch of a google-hosted URL fails, process_link hands
the state, with the URL freshly marked visited and the node fetch
logged, to googleBranch and returns its result unchanged. -/
theorem process_link_google (w : CrawlWorld) (cfg : CrawlCfg) (fuel : Nat) (url : String)
    (c d : Nat) (st : CrawlSt) (hv : url ∉ st.visited) (hd : ¬(d < c))
    (hn : (w.fetch url).resp = none)
    (hh : (pyEndsWith (pyUrlparse url).netloc "drive.google.com" ||
           pyEndsWith (pyUrlparse url).netloc "docs.google.com") = true) :
    process_link w cfg (fuel + 1) url c d st =
      googleBranch w cfg url
        (logEv { st with visited := url :: st.visited } (NetEvent.nodeFetch url)) := by
  have hc : st.visited.contains url = false := by simpa using hv
  simp only [process_link, hc]
  rw [if_neg (by simp), if_neg hd]
  rw [stream_eval_none (w.fetch url) cfg.skipExisting _ hn]
  simp only []
  rw [if_pos hh]

/-- when the rewritten direct-download URL exists and its fetch yields a
PDF response saved cleanly, googleBranch reports one attempt and one
success, logs only the rewrite fetch, and leaves the visited set
untouched: it does not recurse into the acquired document. -/
theorem googleBranch_rewrite_ok (w : CrawlWorld) (cfg : CrawlCfg) (url t : String)
    (st : CrawlSt) (r : HttpResp)
    (hg : google_direct_download_url url = some t)
    (hr : (w.fetch t).resp = some r) (hp : is_pdf_response r = true)
    (hw : (w.fetch t).write = WriteOutcome.ok) :
    googleBranch w cfg url st =
      ⟨⟨st.visited, (stream_download_pdf (w.fetch t) cfg.skipExisting st.fs).2.1,
        st.trace ++ [NetEvent.gFetch t]⟩, 1, 1, 0⟩ := by
  unfold googleBranch
  rw [hg]
  simp only []
  rw [stream_isSome (w.fetch t) cfg.skipExisting _ r hr hp hw]
  rfl

/-- C3 (amended): the cloud-doc fallback does not recurse.  For a fresh
URL within the depth budget whose host is a google host, when the
direct fetch fails, the rewriter produces a direct-download URL and the
fetch of that URL acquires a PDF cleanly, the call reports exactly one
attempt, one success and zero rendered pages, the visited set gains
only the node itself, and the trace gains exactly the node fetch and
the rewrite fetch — in particular no link inside the acquired PDF is
visited or fetched, unlike the recursion performed after a
direct-fetch success (see the counterexample). -/
theorem C3_amended_no_recursion (w : CrawlWorld) (cfg : CrawlCfg) (url t : String)
    (c d : Nat) (st : CrawlSt) (r : HttpResp)
    (hv : url ∉ st.visited) (hd : c ≤ d)
    (hh : (pyEndsWith (pyUrlparse url).netloc "drive.google.com" ||
           pyEndsWith (pyUrlparse url).netloc "docs.google.com") = true)
    (hn : (w.fetch url).resp = none)
    (hg : google_direct_download_url url = some t)
    (hr : (w.fetch t).resp = some r) (hp : is_pdf_response r = true)
    (hw : (w.fetch t).write = WriteOutcome.ok) :
    (process_link_run w cfg url c d st).attempted = 1 ∧
    (process_link_run w cfg url c d st).succeeded = 1 ∧
    (process_link_run w cfg url c d st).rendered = 0 ∧
    (process_link_run w cfg url c d st).st.visited = url :: st.visited ∧
    (process_link_run w cfg url c d st).st.trace =
      st.trace ++ [NetEvent.nodeFetch url, NetEvent.gFetch t] := by
  unfold process_link_run
  have hfuel : d + 1 - c = (d - c) + 1 := by omega
  rw [hfuel]
  rw [process_link_google w cfg (d - c) url c d st hv (by omega) hn hh]
  rw [googleBranch_rewrite_ok w cfg url t _ r hg hr hp hw]
  refine ⟨rfl, rfl, rfl, rfl, ?_⟩
  simp [logEv]

/-- C3 (witness): in world w3 the Drive viewer URL fails its direct
fetch, its rewritten uc?export=download URL acquires a PDF, and the run
reports (1, 1, 0), visits only the viewer URL and performs exactly the
two fetches. -/
theorem C3_witness :
    (process_link_run w3 cfgBase gUrl 0 1 st0).attempted = 1 ∧
    (process_link_run w3 cfgBase gUrl 0 1 st0).succeeded = 1 ∧
    (process_link_run w3 cfgBase gUrl 0 1 st0).rendered = 0 ∧
    (process_link_run w3 cfgBase gUrl 0 1 st0).st.visited = gUrl :: st0.visited ∧
    (process_link_run w3 cfgBase gUrl 0 1 st0).st.trace =
      st0.trace ++ [NetEvent.nodeFetch gUrl, NetEvent.gFetch tUrl] :=
  C3_amended_no_recursion w3 cfgBase gUrl tUrl 0 1 st0
    ⟨"application/pdf", "https://x/doc.pdf", none⟩
    (by simp [st0]) (by omega) (by decide) rfl rfl rfl (by decide) rfl

theorem addRes_counts (acc r : CrawlRes) (ha : acc.succeeded ≤ acc.attempted)
    (hr : r.succeeded ≤ r.attempted) :
    (addRes acc r).succeeded ≤ (addRes acc r).attempted := by
  simp only [addRes]
  omega

theorem pdfStep_counts (go : String → CrawlSt → CrawlRes)
    (hgo : ∀ u s, (go u s).succeeded ≤ (go u s).attempted) (acc : CrawlRes) (su : String)
    (ha : acc.succeeded ≤ acc.attempted) :
    (pdfStep go acc su).succeeded ≤ (pdfStep go acc su).attempted :=
  addRes_counts acc _ ha (hgo su acc.st)

theorem crawlStep_counts (go : String → CrawlSt → CrawlRes)
    (hgo : ∀ u s, (go u s).succeeded ≤ (go u s).attempted) (acc : CrawlRes) (su : String)
    (ha : acc.succeeded ≤ acc.attempted) :
    (crawlStep go acc su).succeeded ≤ (crawlStep go acc su).attempted := by
  unfold crawlStep
  split
  · exact ha
  · exact addRes_counts acc _ ha (hgo su acc.st)

theorem dlStep_counts (w : CrawlWorld) (cfg : CrawlCfg) (acc : CrawlSt × Nat × Nat)
    (pu : String) (ha : acc.2.2 ≤ acc.2.1) :
    (dlStep w cfg acc pu).2.2 ≤ (dlStep w cfg acc pu).2.1 := by
  simp only [dlStep]
  split <;> omega

theorem pdfBranch_counts (w : CrawlWorld) (go : String → CrawlSt → CrawlRes) (b : Bool)
    (path : String) (st : CrawlSt)
    (hgo : ∀ u s, (go u s).succeeded ≤ (go u s).attempted) :
    (pdfBranch w go b path st).succeeded ≤ (pdfBranch w go b path st).attempted := by
  have hfold : ∀ (l : List String) (a : CrawlRes), a.succeeded ≤ a.attempted →
      (l.foldl (pdfStep go) a).succeeded ≤ (l.foldl (pdfStep go) a).attempted :=
    foldl_pres (fun r : CrawlRes => r.succeeded ≤ r.attempted) (pdfStep go)
      (fun a su ha => pdfStep_counts go hgo a su ha)
  have key : ∀ res : CrawlRes, res.succeeded ≤ res.attempted →
      1 + res.succeeded ≤ 1 + res.attempted := fun res h => by omega
  simp only [pdfBranch]
  apply key
  split
  · split
    · simp
    · exact hfold _ _ (by simp)
  · simp

theorem googleBranch_counts (w : CrawlWorld) (cfg : CrawlCfg) (url : String)
    (st : CrawlSt) :
    (googleBranch w cfg url st).succeeded ≤ (googleBranch w cfg url st).attempted := by
  simp only [googleBranch]
  repeat' split
  all_goals simp

theorem genericBranch_counts (w : CrawlWorld) (cfg : CrawlCfg)
    (go : String → CrawlSt → CrawlRes) (b : Bool) (url : String) (st : CrawlSt)
    (hgo : ∀ u s, (go u s).succeeded ≤ (go u s).attempted) :
    (genericBranch w cfg go b url st).succeeded ≤
      (genericBranch w cfg go b url st).attempted := by
  have hdl : ∀ (l : List String) (a : CrawlSt × Nat × Nat), a.2.2 ≤ a.2.1 →
      (l.foldl (dlStep w cfg) a).2.2 ≤ (l.foldl (dlStep w cfg) a).2.1 :=
    foldl_pres (fun a : CrawlSt × Nat × Nat => a.2.2 ≤ a.2.1) (dlStep w cfg)
      (fun a pu ha => dlStep_counts w cfg a pu ha)
  have hcs : ∀ (l : List String) (a : CrawlRes), a.succeeded ≤ a.attempted →
      (l.foldl (crawlStep go) a).succeeded ≤ (l.foldl (crawlStep go) a).attempted :=
    foldl_pres (fun r : CrawlRes => r.succeeded ≤ r.attempted) (crawlStep go)
      (fun a su ha => crawlStep_counts go hgo a su ha)
  have key : ∀ res : CrawlRes, res.succeeded ≤ res.attempted →
      res.succeeded ≤ (if res.attempted == 0 then 1 else res.attempted) := by
    intro res h
    split
    next h0 =>
      simp only [beq_iff_eq] at h0
      omega
    next => exact h
  simp only [genericBranch]
  apply key
  repeat' split
  all_goals
    first
      | exact hcs _ _ (hdl _ _ (by simp))
      | exact hdl _ _ (by simp)
      | simp_all

theorem process_link_counts (w : CrawlWorld) (cfg : CrawlCfg) :
    ∀ (fuel : Nat) (url : String) (c d : Nat) (st : CrawlSt),
      (process_link w cfg fuel url c d st).succeeded ≤
        (process_link w cfg fuel url c d st).attempted := by
  intro fuel
  induction fuel with
  | zero => intro url c d st; exact Nat.le_refl 0
  | succ fuel ih =>
    intro url c d st
    simp only [process_link]
    split
    next => exact Nat.le_refl 0
    next =>
      split
      next => exact Nat.le_refl 0
      next =>
        split
        next path _ => exact pdfBranch_counts w _ _ path _ (fun u s2 => ih u (c + 1) d s2)
        next =>
          split
          next => exact googleBranch_counts w cfg url _
          next =>
            exact genericBranch_counts w cfg _ _ url _ (fun u s2 => ih u (c + 1) d s2)

/-- C10: every (attempted, succeeded, rendered) triple returned by
process_link satisfies succeeded less-or-equal attempted, for every
world, configuration, URL, current depth, depth bound and starting
state: the reported success count never exceeds the reported attempt
count. -/
theorem C10_succ_le_attempted (w : CrawlWorld) (cfg : CrawlCfg) (url : String)
    (c d : Nat) (st : CrawlSt) :
    (process_link_run w cfg url c d st).succeeded ≤
      (process_link_run w cfg url c d st).attempted :=
  process_link_counts w cfg (d + 1 - c) url c d st

end LinkDownloader
